import Mathlib

/-!
Shallow embedding of the computation core of `scorecard-app-v1.1.py`
(EPCM Project Scorecard): duration parsing, week bucketing, task
classification, rate resolution, earned-value aggregation and the
S-curve / variance generator, together with theorems checking the
natural-language specification against these definitions.

Modelling conventions:
* Python floats are modelled as rationals (`ℚ`); float literals such as
  `1.2` are taken at their decimal value (`6/5`).
* Dates/timestamps are modelled as integer day numbers with day `0` =
  Monday 2025-10-06, so `weekday d = d.emod 7` agrees with Python's
  `datetime.weekday` (0 = Monday … 6 = Sunday).  Under this epoch
  2025-10-07 (Tue) = 1, 2025-10-11 (Sat) = 5, 2025-10-18 (Sat) = 12,
  2025-10-28 (Tue) = 22.
* pandas dataframes are modelled as lists of records; a dict is a list
  of key-value cells.  A value that may be NaN/None is an `Option`.
-/

namespace Scorecard

/-- Decimal value of a digit list (most significant first). -/
def digitsVal (cs : List Char) : ℕ :=
  cs.foldl (fun acc c => acc * 10 + (c.toNat - 48)) 0

/-- A non-empty all-digit character list, or `none`. -/
def decDigits (cs : List Char) : Option ℕ :=
  if cs ≠ [] ∧ cs.all Char.isDigit then some (digitsVal cs) else none

/-- Model of Python `int(s)` on a string (as a character list): an
optional sign followed by decimal digits (whitespace/underscore forms
lie outside the model). -/
def pyInt : List Char → Option ℤ
  | '-' :: rest => (decDigits rest).map (fun n => -(n : ℤ))
  | '+' :: rest => (decDigits rest).map (fun n => (n : ℤ))
  | cs => (decDigits cs).map (fun n => (n : ℤ))

/-- Unsigned part of Python `float(s)`: digits, optionally with a decimal
point (`"3"`, `"3."`, `".5"`, `"3.5"`). -/
def pyFloatMag (cs : List Char) : Option ℚ :=
  let ip := cs.takeWhile Char.isDigit
  let rest := cs.dropWhile Char.isDigit
  match rest with
  | [] => if ip = [] then none else some (digitsVal ip : ℚ)
  | '.' :: fp =>
    if fp.all Char.isDigit ∧ (ip ≠ [] ∨ fp ≠ []) then
      some ((digitsVal ip : ℚ) + (digitsVal fp : ℚ) / 10 ^ fp.length)
    else none
  | _ => none

/-- Model of Python `float(s)` on a string (as a character list):
optional sign and a finite decimal literal (exponent/`nan`/`inf` forms
lie outside the model). -/
def pyFloat : List Char → Option ℚ
  | '-' :: rest => (pyFloatMag rest).map (fun q => -q)
  | '+' :: rest => pyFloatMag rest
  | cs => pyFloatMag cs

/-- Model of Python `s.split(sep)` for a one-character separator. -/
def splitOnChar (sep : Char) : List Char → List (List Char)
  | [] => [[]]
  | c :: rest =>
    let r := splitOnChar sep rest
    if c == sep then [] :: r
    else
      match r with
      | [] => [[c]]
      | h :: t => (c :: h) :: t

/-- The duration cell handed to `parse_time_to_hours`: a number, a
string, or a missing value (`None`/`NaN`, detected by `pd.isna`). -/
inductive Duration where
  | num (q : ℚ)
  | str (s : String)
  | missing
deriving DecidableEq

/-- `parse_time_to_hours` from the source: missing/empty input is 0,
numbers pass through, colon strings are parsed as `H:MM:SS` / `H:MM`
with Python `int` parts, any other string as a bare float, and every
parse failure (the `except` clause) yields 0. -/
def parse_time_to_hours : Duration → ℚ
  | Duration.missing => 0
  | Duration.num q => q
  | Duration.str s =>
    if s = "" then 0
    else
      match splitOnChar ':' s.data with
      | [a, b, c] =>
        match pyInt a, pyInt b, pyInt c with
        | some hours, some minutes, some seconds =>
          (hours : ℚ) + (minutes : ℚ) / 60 + (seconds : ℚ) / 3600
        | _, _, _ => 0
      | [a, b] =>
        match pyInt a, pyInt b with
        | some hours, some minutes => (hours : ℚ) + (minutes : ℚ) / 60
        | _, _ => 0
      | _ =>
        match pyFloat s.data with
        | some q => q
        | none => 0

/-- `calculate_week_ending` from the source: add
`(5 - weekday) % 7` days, replacing 0 by 7. -/
def calculate_week_ending (d : ℤ) : ℤ :=
  let days_until_saturday := (5 - d % 7) % 7
  let days_until_saturday :=
    if days_until_saturday = 0 then 7 else days_until_saturday
  d + days_until_saturday

/-- `needle` occurs at the start of `hay`. -/
def startsWithChars : List Char → List Char → Bool
  | [], _ => true
  | _ :: _, [] => false
  | a :: as, b :: bs => a == b && startsWithChars as bs

/-- Model of Python `needle in hay` on strings: `needle` occurs as a
contiguous substring of `hay`. -/
def containsChars (needle : List Char) : List Char → Bool
  | [] => needle.isEmpty
  | c :: rest => startsWithChars needle (c :: rest) || containsChars needle rest

/-- `map_function` from the source: case-insensitive substring match,
MANAGEMENT before DRAFTING, ENGINEERING as default. -/
def map_function (task_name : Option String) : String :=
  match task_name with
  | none => "ENGINEERING"
  | some t =>
    let task_upper := t.data.map Char.toUpper
    if containsChars "PM".data task_upper
        ∨ containsChars "MANAGEMENT".data task_upper then
      "MANAGEMENT"
    else if containsChars "DF".data task_upper
        ∨ containsChars "DRAFT".data task_upper
        ∨ containsChars "3D".data task_upper then
      "DRAFTING"
    else "ENGINEERING"

/-- A row of the rate-schedule dataframe (columns `Position`, `Rate`). -/
structure RateRow where
  Position : String
  Rate : ℚ
deriving DecidableEq

/-- A row of the staff dataframe (columns `Name`, `Position`; the
position cell may be missing). -/
structure StaffRow where
  Name : String
  Position : Option String
deriving DecidableEq

/-- `lookup_rate_by_position` from the source. -/
def lookup_rate_by_position (position : Option String)
    (rates_df : List RateRow) : ℚ :=
  if rates_df = [] ∨ position = none then 170
  else
    match position with
    | none => 170
    | some p =>
      match rates_df.find? (fun r => r.Position == p) with
      | some r => r.Rate
      | none => 170

/-- `get_staff_rate` from the source. -/
def get_staff_rate (staff_name : String) (staff_df : List StaffRow)
    (rates_df : List RateRow) : ℚ :=
  if staff_df = [] then 170
  else
    match staff_df.find? (fun r => r.Name == staff_name) with
    | some r => lookup_rate_by_position r.Position rates_df
    | none => 170

/-- `calculate_performance_factor` from the source. -/
def calculate_performance_factor (budget actual : ℚ) : ℚ :=
  if 0 < actual then budget / actual else 1

/-- `get_week_list` from the source: starting from the week ending of
`start_date`, step by 7 days while ≤ the week ending of `end_date`,
then append `num_future_weeks` further weekly buckets.  Week endings
always satisfy `w.emod 7 = 5`, so the while loop emits exactly
`(e - c) / 7 + 1` buckets when `c ≤ e`; the closed form below lists
`c + 7 * i` in loop order. -/
def get_week_list (start_date end_date : ℤ) (num_future_weeks : ℕ) : List ℤ :=
  let c := calculate_week_ending start_date
  let e := calculate_week_ending end_date
  let n : ℕ := if c ≤ e then ((e - c) / 7 + 1).toNat else 0
  (List.range (n + num_future_weeks)).map (fun i : ℕ => c + 7 * (i : ℤ))

/-- A row of the deliverables dataframe as `calculate_earned_value`
addresses it (columns `function`, `budget_hours`, `completion`); the
derived `earned_hours` column may be absent (`none`) before the first
call. -/
structure DeliverableRow where
  function : String
  budget_hours : ℚ
  completion : ℚ
  earned_hours : Option ℚ
deriving DecidableEq

/-- The dict returned by `calculate_earned_value`. -/
structure EVResult where
  earned_hours : ℚ
  earned_cost : ℚ
deriving DecidableEq

/-- The pandas column assignment
`deliverables_df['earned_hours'] = budget_hours * completion / 100.0`
applied to one row. -/
def set_earned (r : DeliverableRow) : DeliverableRow :=
  { r with earned_hours := some (r.budget_hours * r.completion / 100) }

/-- The inline dict lookup
`{'MANAGEMENT': 245, 'ENGINEERING': 180, 'DRAFTING': 170}.get(func, 180)`
of `calculate_earned_value`. -/
def std_func_rate (func : String) : ℚ :=
  if func == "MANAGEMENT" then 245
  else if func == "ENGINEERING" then 180
  else if func == "DRAFTING" then 170
  else 180

/-- `calculate_earned_value` from the source.  The column assignment on
line 125 mutates the caller's dataframe, so the embedding returns the
post-call dataframe alongside the result dict. -/
def calculate_earned_value (deliverables_df : List DeliverableRow) :
    List DeliverableRow × EVResult :=
  if deliverables_df.isEmpty then (deliverables_df, ⟨0, 0⟩)
  else
    let df := deliverables_df.map set_earned
    let earned_hours := (df.map (fun r => r.earned_hours.getD 0)).sum
    let total_earned_cost :=
      ((["MANAGEMENT", "ENGINEERING", "DRAFTING"]).map (fun func =>
        let func_deliverables := df.filter (fun r => r.function == func)
        if func_deliverables.isEmpty then 0
        else
          let func_earned_hours :=
            (func_deliverables.map (fun r => r.earned_hours.getD 0)).sum
          func_earned_hours * std_func_rate func)).sum
    (df, ⟨earned_hours, total_earned_cost⟩)

/-- Earned hours as §4.4 of the spec states them: the sum over all
deliverables of `budget_hours * completion / 100`. -/
def earnedHoursSpec (ds : List DeliverableRow) : ℚ :=
  (ds.map (fun r => r.budget_hours * r.completion / 100)).sum

/-- Earned cost as §4.4 of the spec states it: group deliverables by
function and charge each group's earned hours at the fixed standard
rates MANAGEMENT = 245, ENGINEERING = 180, DRAFTING = 170. -/
def earnedCostSpec (ds : List DeliverableRow) : ℚ :=
  245 * earnedHoursSpec (ds.filter (fun r => r.function == "MANAGEMENT"))
    + 180 * earnedHoursSpec (ds.filter (fun r => r.function == "ENGINEERING"))
    + 170 * earnedHoursSpec (ds.filter (fun r => r.function == "DRAFTING"))

/-- A raw timesheet row before normalization (`load_sample_data` /
`page_data_import` shape: date, staff name, task label, duration). -/
structure RawEntry where
  date : ℤ
  staff_name : String
  task_name : Option String
  time : Duration
deriving DecidableEq

/-- A normalized timesheet row: the raw fields plus the derived
`hours`, `week_ending`, `function`, `rate` and `cost` columns. -/
structure NormEntry where
  date : ℤ
  week_ending : ℤ
  staff_name : String
  task_name : Option String
  function : String
  hours : ℚ
  rate : ℚ
  cost : ℚ
deriving DecidableEq

/-- One raw row through the normalization pipeline of
`load_sample_data` / `page_data_import`:
`hours = parse_time_to_hours(time)`,
`week_ending = calculate_week_ending(date)`,
`function = map_function(task_name)`,
`rate = get_staff_rate(staff_name, staff, rates)`,
`cost = hours * rate`. -/
def normalize_entry (staff_df : List StaffRow) (rates_df : List RateRow)
    (r : RawEntry) : NormEntry :=
  let hours := parse_time_to_hours r.time
  let rate := get_staff_rate r.staff_name staff_df rates_df
  { date := r.date
    week_ending := calculate_week_ending r.date
    staff_name := r.staff_name
    task_name := r.task_name
    function := map_function r.task_name
    hours := hours
    rate := rate
    cost := hours * rate }

/-- The whole-dataframe normalization (columnwise `apply` in the
source, rowwise here: the columns are independent). -/
def normalize (staff_df : List StaffRow) (rates_df : List RateRow)
    (rows : List RawEntry) : List NormEntry :=
  rows.map (normalize_entry staff_df rates_df)

/-- `df['hours'].sum()`: total hours over all timesheet rows. -/
def total_hours (entries : List NormEntry) : ℚ :=
  (entries.map (fun e => e.hours)).sum

/-- `df[df['week_ending'] <= week]['hours'].sum()`. -/
def hours_up_to (entries : List NormEntry) (week : ℤ) : ℚ :=
  ((entries.filter (fun e => decide (e.week_ending ≤ week))).map
    (fun e => e.hours)).sum

/-- One cell of the Budget (planned, cumulative) series of
`page_s_curves`: linear distribution over the weeks ≤ `end_date`,
flat at `total_budget` afterwards. -/
def budget_at (weeks : List ℤ) (end_date : ℤ) (total_budget : ℚ)
    (i : ℕ) : ℚ :=
  let week := weeks.getD i 0
  let total_weeks :=
    (weeks.filter (fun w => decide (w ≤ end_date))).length
  if week ≤ end_date then
    let week_num :=
      ((weeks.take (i + 1)).filter (fun w => decide (w ≤ end_date))).length
    if 0 < total_weeks then
      ((week_num : ℚ) / (total_weeks : ℚ)) * total_budget
    else 0
  else total_budget

/-- The Budget series (`budget_curve` in the source). -/
def budget_curve (weeks : List ℤ) (end_date : ℤ) (total_budget : ℚ) :
    List ℚ :=
  (List.range weeks.length).map (budget_at weeks end_date total_budget)

/-- One cell of the Actual (cumulative) series of `page_s_curves`. -/
def actual_at (entries : List NormEntry) (report_date week : ℤ) : ℚ :=
  if week ≤ report_date then hours_up_to entries week
  else total_hours entries

/-- The Actual series (`actual_curve` in the source). -/
def actual_curve (entries : List NormEntry) (report_date : ℤ)
    (weeks : List ℤ) : List ℚ :=
  weeks.map (actual_at entries report_date)

/-- One cell of the Earned (cumulative) series of `page_s_curves`:
before the report date the earned-value total is scaled by
`min(actual_to_date / total_budget, 1.0)`, afterwards it is flat. -/
def earned_at (entries : List NormEntry) (dels : List DeliverableRow)
    (total_budget : ℚ) (report_date week : ℤ) : ℚ :=
  let ev := (calculate_earned_value dels).2
  if week ≤ report_date then
    let actual_to_date := total_hours entries
    if 0 < total_budget then
      ev.earned_hours * min (actual_to_date / total_budget) 1
    else 0
  else ev.earned_hours

/-- One cell of the weekly-forecast dict
(`st.session_state.weekly_forecasts`): key (person, week), value
forecast hours. -/
structure ForecastCell where
  person : String
  week : ℤ
  hours : ℚ
deriving DecidableEq

/-- One cell of the Forecast (cumulative) series of `page_s_curves`:
actuals before the report date, total actuals plus forecast-map hours
for weeks ≤ `week` afterwards, capped at `total_budget * 1.2`
(`1.2 = 6/5` exactly in the rational model). -/
def forecast_at (entries : List NormEntry) (forecasts : List ForecastCell)
    (total_budget : ℚ) (report_date week : ℤ) : ℚ :=
  let fc :=
    if week ≤ report_date then actual_at entries report_date week
    else
      total_hours entries +
        ((forecasts.filter (fun f => decide (f.week ≤ week))).map
          (fun f => f.hours)).sum
  min fc (total_budget * (6 / 5))

/-- The Forecast series (`forecast_curve` in the source). -/
def forecast_curve (entries : List NormEntry) (forecasts : List ForecastCell)
    (total_budget : ℚ) (report_date : ℤ) (weeks : List ℤ) : List ℚ :=
  weeks.map (forecast_at entries forecasts total_budget report_date)

/-- `current_actual` of the variance block (line 619):
`df['hours'].sum()` over ALL timesheet rows. -/
def current_actual (entries : List NormEntry) : ℚ :=
  total_hours entries

/-- `current_earned` of the variance block (line 620): the unscaled
earned-hours total from `calculate_earned_value`. -/
def current_earned (dels : List DeliverableRow) : ℚ :=
  (calculate_earned_value dels).2.earned_hours

/-- `current_budget` of the variance block (line 621):
`budget_curve[weeks.index(report_date)]` when the report date occurs in
the week list, `total_budget` otherwise. -/
def current_budget (weeks : List ℤ) (end_date : ℤ) (total_budget : ℚ)
    (report_date : ℤ) : ℚ :=
  if report_date ∈ weeks then
    (budget_curve weeks end_date total_budget).getD
      (weeks.indexOf report_date) 0
  else total_budget

/-- `schedule_variance = current_earned - current_budget` (line 623). -/
def schedule_variance (dels : List DeliverableRow) (weeks : List ℤ)
    (end_date : ℤ) (total_budget : ℚ) (report_date : ℤ) : ℚ :=
  current_earned dels - current_budget weeks end_date total_budget report_date

/-- `cost_variance = current_earned - current_actual` (line 624). -/
def cost_variance (entries : List NormEntry)
    (dels : List DeliverableRow) : ℚ :=
  current_earned dels - current_actual entries

/-- `spi = current_earned / current_budget if current_budget > 0 else 1.0`
(line 640). -/
def spi (dels : List DeliverableRow)
    (weeks : List ℤ) (end_date : ℤ) (total_budget : ℚ)
    (report_date : ℤ) : ℚ :=
  if 0 < current_budget weeks end_date total_budget report_date then
    current_earned dels / current_budget weeks end_date total_budget report_date
  else 1

/-- `cpi = current_earned / current_actual if current_actual > 0 else 1.0`
(line 641). -/
def cpi (entries : List NormEntry) (dels : List DeliverableRow) : ℚ :=
  if 0 < current_actual entries then
    current_earned dels / current_actual entries
  else 1

/-! ### Helper lemmas -/

theorem digit_char_toNat :
    Char.toNat '0' = 48 ∧ Char.toNat '1' = 49 ∧ Char.toNat '2' = 50 ∧
    Char.toNat '3' = 51 ∧ Char.toNat '4' = 52 ∧ Char.toNat '5' = 53 ∧
    Char.toNat '6' = 54 ∧ Char.toNat '7' = 55 ∧ Char.toNat '8' = 56 ∧
    Char.toNat '9' = 57 :=
  ⟨rfl, rfl, rfl, rfl, rfl, rfl, rfl, rfl, rfl, rfl⟩

/-! ### C7: duration parsing -/

/-- C7: `parse_time_to_hours` returns a numeric input as-is; a string
splitting on `:` into three parts parses as `H + MM/60 + SS/3600` and
into two parts as `H + MM/60` (0 when a part is not an integer); any
other string is parsed as a bare float; empty or missing input yields
0 (the Lean function is total, which is the never-raises guarantee);
in particular `"08:24:00" ↦ 8.4`, `"" ↦ 0`, `3.5 ↦ 3.5`,
`"garbage" ↦ 0`. -/
theorem parse_duration_conformance :
    (∀ q : ℚ, parse_time_to_hours (Duration.num q) = q)
    ∧ parse_time_to_hours (Duration.str "") = 0
    ∧ parse_time_to_hours Duration.missing = 0
    ∧ (∀ s a b c hq mq sq, s ≠ "" → splitOnChar ':' s.data = [a, b, c] →
        pyInt a = some hq → pyInt b = some mq → pyInt c = some sq →
        parse_time_to_hours (Duration.str s)
          = (hq : ℚ) + (mq : ℚ) / 60 + (sq : ℚ) / 3600)
    ∧ (∀ s a b c, s ≠ "" → splitOnChar ':' s.data = [a, b, c] →
        pyInt a = none ∨ pyInt b = none ∨ pyInt c = none →
        parse_time_to_hours (Duration.str s) = 0)
    ∧ (∀ s a b hq mq, s ≠ "" → splitOnChar ':' s.data = [a, b] →
        pyInt a = some hq → pyInt b = some mq →
        parse_time_to_hours (Duration.str s) = (hq : ℚ) + (mq : ℚ) / 60)
    ∧ (∀ s a b, s ≠ "" → splitOnChar ':' s.data = [a, b] →
        pyInt a = none ∨ pyInt b = none →
        parse_time_to_hours (Duration.str s) = 0)
    ∧ (∀ s, s ≠ "" → (splitOnChar ':' s.data).length ≠ 2 →
        (splitOnChar ':' s.data).length ≠ 3 →
        parse_time_to_hours (Duration.str s) = (pyFloat s.data).getD 0)
    ∧ parse_time_to_hours (Duration.str "08:24:00") = 42 / 5
    ∧ parse_time_to_hours (Duration.num (7 / 2)) = 7 / 2
    ∧ parse_time_to_hours (Duration.str "garbage") = 0 := by
  refine ⟨fun q => rfl, rfl, rfl, ?_, ?_, ?_, ?_, ?_, ?_, rfl, ?_⟩
  · intro s a b c hq mq sq hne hsplit ha hb hc
    simp only [parse_time_to_hours, if_neg hne, hsplit, ha, hb, hc]
  · intro s a b c hne hsplit hnone
    simp only [parse_time_to_hours, if_neg hne, hsplit]
    rcases h1 : pyInt a with _ | x <;> rcases h2 : pyInt b with _ | y <;>
      rcases h3 : pyInt c with _ | z <;> simp_all
  · intro s a b hq mq hne hsplit ha hb
    simp only [parse_time_to_hours, if_neg hne, hsplit, ha, hb]
  · intro s a b hne hsplit hnone
    simp only [parse_time_to_hours, if_neg hne, hsplit]
    rcases h1 : pyInt a with _ | x <;> rcases h2 : pyInt b with _ | y <;>
      simp_all
  · intro s hne h2 h3
    simp only [parse_time_to_hours]
    rw [if_neg hne]
    rcases hs : splitOnChar ':' s.data with _ | ⟨a, _ | ⟨b, _ | ⟨c, _ | ⟨d, rest⟩⟩⟩⟩
    · rcases h : pyFloat s.data with _ | q <;> simp [h]
    · rcases h : pyFloat s.data with _ | q <;> simp [h]
    · rw [hs] at h2; simp at h2
    · rw [hs] at h3; simp at h3
    · rcases h : pyFloat s.data with _ | q <;> simp [h]
  · norm_num +decide [parse_time_to_hours, splitOnChar, pyInt, decDigits,
      digitsVal, digit_char_toNat]
  · norm_num +decide [parse_time_to_hours, splitOnChar, pyInt, pyFloat,
      pyFloatMag, decDigits, digitsVal]

/-- Witness for C7: the three-part case applied at `"08:24:00"`. -/
theorem parse_duration_conformance_witness :
    parse_time_to_hours (Duration.str "08:24:00")
      = (8 : ℚ) + 24 / 60 + 0 / 3600 :=
  parse_duration_conformance.2.2.2.1 "08:24:00" "08".data "24".data "00".data
    8 24 0 (by decide) (by decide) (by decide) (by decide) (by decide)

/-! ### C8: week-ending computation -/

/-- C8: `calculate_week_ending` always lands on a Saturday
(`emod 7 = 5` under the Monday-epoch convention) strictly after the
input and at most 7 days later — hence the nearest subsequent
Saturday — via `days_to_add = (5 - weekday) mod 7` with 0 replaced
by 7; a Saturday input advances a full week; concretely
2025-10-11 (day 5) ↦ 2025-10-18 (day 12) and
2025-10-07 (day 1) ↦ 2025-10-11 (day 5). -/
theorem week_ending_conformance :
    (∀ d : ℤ,
      calculate_week_ending d % 7 = 5
      ∧ d < calculate_week_ending d
      ∧ calculate_week_ending d ≤ d + 7)
    ∧ (∀ d : ℤ, calculate_week_ending d
        = d + (if (5 - d % 7) % 7 = 0 then 7 else (5 - d % 7) % 7))
    ∧ (∀ d : ℤ, d % 7 = 5 → calculate_week_ending d = d + 7)
    ∧ calculate_week_ending 5 = 12
    ∧ calculate_week_ending 1 = 5 := by
  refine ⟨fun d => ?_, fun d => rfl, fun d h => ?_, by decide, by decide⟩
  · have h0 : 0 ≤ d % 7 := Int.emod_nonneg d (by norm_num)
    have h1 : d % 7 < 7 := Int.emod_lt_of_pos d (by norm_num)
    obtain ⟨r, hr⟩ : ∃ r, d % 7 = r := ⟨_, rfl⟩
    rw [hr] at h0 h1
    simp only [calculate_week_ending, hr]
    interval_cases r <;> split_ifs <;> exact ⟨by omega, by omega, by omega⟩
  · simp only [calculate_week_ending, h]
    split_ifs with hc <;> omega

/-- Witness for C8: the Saturday-input clause applied at day 5
(2025-10-11). -/
theorem week_ending_conformance_witness :
    calculate_week_ending 5 = 5 + 7 :=
  week_ending_conformance.2.2.1 5 (by decide)

/-! ### C9: rate resolution -/

/-- C9: `get_staff_rate` returns the rate of the first rate-table row
whose position equals the position of the first staff row matching the
name, and 170 whenever the staff table is empty, the name is
unmatched, the position is missing, the rate table is empty, or the
position has no rate-table match. -/
theorem rate_lookup_conformance :
    (∀ (staff_name : String) (staff_df : List StaffRow) (rates_df : List RateRow),
      staff_df = [] → get_staff_rate staff_name staff_df rates_df = 170)
    ∧ (∀ (staff_name : String) (staff_df : List StaffRow) (rates_df : List RateRow),
      staff_df.find? (fun r => r.Name == staff_name) = none →
      get_staff_rate staff_name staff_df rates_df = 170)
    ∧ (∀ (staff_name : String) (staff_df : List StaffRow) (rates_df : List RateRow) s,
      staff_df.find? (fun r => r.Name == staff_name) = some s →
      s.Position = none →
      get_staff_rate staff_name staff_df rates_df = 170)
    ∧ (∀ (staff_name : String) (staff_df : List StaffRow) (rates_df : List RateRow) s,
      staff_df.find? (fun r => r.Name == staff_name) = some s →
      rates_df = [] →
      get_staff_rate staff_name staff_df rates_df = 170)
    ∧ (∀ (staff_name : String) (staff_df : List StaffRow) (rates_df : List RateRow) s p,
      staff_df.find? (fun r => r.Name == staff_name) = some s →
      s.Position = some p →
      rates_df.find? (fun t => t.Position == p) = none →
      get_staff_rate staff_name staff_df rates_df = 170)
    ∧ (∀ (staff_name : String) (staff_df : List StaffRow) (rates_df : List RateRow) s p t,
      staff_df.find? (fun r => r.Name == staff_name) = some s →
      s.Position = some p →
      rates_df.find? (fun u => u.Position == p) = some t →
      get_staff_rate staff_name staff_df rates_df = t.Rate) := by
  refine ⟨?_, ?_, ?_, ?_, ?_, ?_⟩
  · intro staff_name staff_df rates_df h
    simp [get_staff_rate, h]
  · intro staff_name staff_df rates_df h
    by_cases he : staff_df = [] <;> simp [get_staff_rate, he, h]
  · intro staff_name staff_df rates_df s hf hp
    have he : staff_df ≠ [] := by rintro rfl; simp at hf
    simp [get_staff_rate, he, hf, lookup_rate_by_position, hp]
  · intro staff_name staff_df rates_df s hf hr
    have he : staff_df ≠ [] := by rintro rfl; simp at hf
    simp [get_staff_rate, he, hf, lookup_rate_by_position, hr]
  · intro staff_name staff_df rates_df s p hf hp hr
    have he : staff_df ≠ [] := by rintro rfl; simp at hf
    by_cases hre : rates_df = [] <;>
      simp [get_staff_rate, he, hf, lookup_rate_by_position, hp, hre, hr]
  · intro staff_name staff_df rates_df s p t hf hp hr
    have he : staff_df ≠ [] := by rintro rfl; simp at hf
    have hre : rates_df ≠ [] := by rintro rfl; simp at hr
    simp [get_staff_rate, he, hf, lookup_rate_by_position, hp, hre, hr]

/-- Witness for C9: the full two-level lookup on a one-row staff table
and one-row rate table. -/
theorem rate_lookup_conformance_witness :
    get_staff_rate "A" [⟨"A", some "P"⟩] [⟨"P", 200⟩] = 200 :=
  rate_lookup_conformance.2.2.2.2.2 "A" [⟨"A", some "P"⟩] [⟨"P", 200⟩]
    ⟨"A", some "P"⟩ "P" ⟨"P", 200⟩ (by decide) rfl (by decide)

/-! ### Earned-value helper lemmas -/

theorem set_earned_function (r : DeliverableRow) :
    (set_earned r).function = r.function := rfl

theorem func_string_ne :
    ("ENGINEERING" : String) ≠ "MANAGEMENT"
    ∧ ("MANAGEMENT" : String) ≠ "ENGINEERING"
    ∧ ("MANAGEMENT" : String) ≠ "DRAFTING"
    ∧ ("ENGINEERING" : String) ≠ "DRAFTING"
    ∧ ("DRAFTING" : String) ≠ "MANAGEMENT"
    ∧ ("DRAFTING" : String) ≠ "ENGINEERING"
    ∧ ("OTHER" : String) ≠ "MANAGEMENT"
    ∧ ("OTHER" : String) ≠ "ENGINEERING"
    ∧ ("OTHER" : String) ≠ "DRAFTING" := by decide

theorem std_func_rate_vals :
    std_func_rate "MANAGEMENT" = 245
    ∧ std_func_rate "ENGINEERING" = 180
    ∧ std_func_rate "DRAFTING" = 170 := by decide

theorem filter_map_set_earned (ds : List DeliverableRow) (func : String) :
    (ds.map set_earned).filter (fun r => r.function == func)
      = (ds.filter (fun r => r.function == func)).map set_earned := by
  induction ds with
  | nil => rfl
  | cons a l ih =>
    by_cases h : a.function = func <;>
      simp [set_earned, h, List.filter_cons, ih]

theorem sum_earned_map (ds : List DeliverableRow) :
    ((ds.map set_earned).map (fun r => r.earned_hours.getD 0)).sum
      = earnedHoursSpec ds := by
  induction ds with
  | nil => rfl
  | cons a l ih =>
    simp only [List.map_cons, List.sum_cons]
    rw [ih]
    simp [earnedHoursSpec, set_earned]

theorem func_cost_eq (ds : List DeliverableRow) (func : String) (rate : ℚ) :
    (if ((ds.map set_earned).filter (fun r => r.function == func)).isEmpty
        then 0
        else (((ds.map set_earned).filter
            (fun r => r.function == func)).map
            (fun r => r.earned_hours.getD 0)).sum * rate)
      = rate * earnedHoursSpec (ds.filter (fun r => r.function == func)) := by
  rw [filter_map_set_earned]
  by_cases h : ds.filter (fun r => r.function == func) = []
  · simp [h, earnedHoursSpec]
  · rw [if_neg (by simp [h]), sum_earned_map, mul_comm]

theorem ev_hours_eq (ds : List DeliverableRow) :
    (calculate_earned_value ds).2.earned_hours = earnedHoursSpec ds := by
  by_cases h : ds.isEmpty
  · rw [List.isEmpty_iff] at h
    subst h
    rfl
  · simp only [calculate_earned_value, h, Bool.false_eq_true, if_false]
    exact sum_earned_map ds

theorem ev_cost_eq (ds : List DeliverableRow) :
    (calculate_earned_value ds).2.earned_cost = earnedCostSpec ds := by
  by_cases h : ds.isEmpty
  · rw [List.isEmpty_iff] at h
    subst h
    norm_num [calculate_earned_value, earnedCostSpec, earnedHoursSpec]
  · simp only [calculate_earned_value, h, Bool.false_eq_true, if_false,
      List.map_cons, List.map_nil, List.sum_cons, List.sum_nil, add_zero]
    rw [func_cost_eq ds "MANAGEMENT" (std_func_rate "MANAGEMENT"),
      func_cost_eq ds "ENGINEERING" (std_func_rate "ENGINEERING"),
      func_cost_eq ds "DRAFTING" (std_func_rate "DRAFTING"),
      std_func_rate_vals.1, std_func_rate_vals.2.1, std_func_rate_vals.2.2,
      earnedCostSpec]
    ring

/-! ### C4: earned-value engine -/

/-- C4: `calculate_earned_value` returns as earned hours the sum over
all deliverables of `budget_hours * completion / 100`, and as earned
cost the per-function group totals costed at the fixed standard rates
245/180/170 (the function takes no rate schedule at all); the empty
list yields `{0, 0}`, and the §8 two-deliverable example yields 40
hours and 8500 cost. -/
theorem earned_value_conformance :
    (∀ ds : List DeliverableRow,
      (calculate_earned_value ds).2.earned_hours = earnedHoursSpec ds
      ∧ (calculate_earned_value ds).2.earned_cost = earnedCostSpec ds)
    ∧ (calculate_earned_value ([] : List DeliverableRow)).2 = ⟨0, 0⟩
    ∧ (calculate_earned_value
        [⟨"MANAGEMENT", 20, 100, none⟩, ⟨"ENGINEERING", 40, 50, none⟩]).2
        = ⟨40, 8500⟩ := by
  refine ⟨fun ds => ⟨ev_hours_eq ds, ev_cost_eq ds⟩, rfl, ?_⟩
  have h1 := ev_hours_eq
    [⟨"MANAGEMENT", 20, 100, none⟩, ⟨"ENGINEERING", 40, 50, none⟩]
  have h2 := ev_cost_eq
    [⟨"MANAGEMENT", 20, 100, none⟩, ⟨"ENGINEERING", 40, 50, none⟩]
  have hh : earnedHoursSpec
      [⟨"MANAGEMENT", 20, 100, none⟩, ⟨"ENGINEERING", 40, 50, none⟩]
      = 40 := by
    norm_num [earnedHoursSpec]
  have hc : earnedCostSpec
      [⟨"MANAGEMENT", 20, 100, none⟩, ⟨"ENGINEERING", 40, 50, none⟩]
      = 8500 := by
    norm_num [earnedCostSpec, earnedHoursSpec, List.filter_cons, func_string_ne]
  have hsplit : (calculate_earned_value
      [⟨"MANAGEMENT", 20, 100, none⟩, ⟨"ENGINEERING", 40, 50, none⟩]).2
      = ⟨(calculate_earned_value
          [⟨"MANAGEMENT", 20, 100, none⟩, ⟨"ENGINEERING", 40, 50, none⟩]).2.earned_hours,
        (calculate_earned_value
          [⟨"MANAGEMENT", 20, 100, none⟩, ⟨"ENGINEERING", 40, 50, none⟩]).2.earned_cost⟩ :=
    rfl
  rw [hsplit, h1, h2, hh, hc]

/-! ### C10: deliverables with an unrecognised function -/

/-- C10: a deliverable whose function is none of MANAGEMENT,
ENGINEERING, DRAFTING still contributes `budget_hours * completion /
100` to the earned-hours total but nothing to the earned cost; in
particular a single `"OTHER"` deliverable yields positive earned hours
and zero earned cost. -/
theorem unknown_function_contribution (ds : List DeliverableRow)
    (r : DeliverableRow)
    (h : r.function ∉ (["MANAGEMENT", "ENGINEERING", "DRAFTING"] : List String)) :
    (calculate_earned_value (r :: ds)).2.earned_hours
      = r.budget_hours * r.completion / 100
        + (calculate_earned_value ds).2.earned_hours
    ∧ (calculate_earned_value (r :: ds)).2.earned_cost
      = (calculate_earned_value ds).2.earned_cost
    ∧ (calculate_earned_value [⟨"OTHER", 10, 100, none⟩]).2.earned_hours = 10
    ∧ (calculate_earned_value [⟨"OTHER", 10, 100, none⟩]).2.earned_cost = 0 := by
  simp only [List.mem_cons, List.not_mem_nil, or_false, not_or] at h
  obtain ⟨hm, he, hd⟩ := h
  refine ⟨?_, ?_, ?_, ?_⟩
  · rw [ev_hours_eq, ev_hours_eq, earnedHoursSpec, earnedHoursSpec]
    simp
  · rw [ev_cost_eq, ev_cost_eq, earnedCostSpec, earnedCostSpec]
    simp [List.filter_cons, hm, he, hd]
  · rw [ev_hours_eq]
    norm_num [earnedHoursSpec]
  · rw [ev_cost_eq]
    norm_num [earnedCostSpec, earnedHoursSpec, List.filter_cons, func_string_ne]

/-- Witness for C10: the unknown-function clause applied to a concrete
`"OTHER"` deliverable on top of the empty list. -/
theorem unknown_function_contribution_witness :
    (calculate_earned_value [(⟨"OTHER", 10, 100, none⟩ : DeliverableRow)]).2.earned_hours
      = 10 * 100 / 100
        + (calculate_earned_value ([] : List DeliverableRow)).2.earned_hours
    ∧ (calculate_earned_value [(⟨"OTHER", 10, 100, none⟩ : DeliverableRow)]).2.earned_cost
      = (calculate_earned_value ([] : List DeliverableRow)).2.earned_cost :=
  ⟨(unknown_function_contribution [] ⟨"OTHER", 10, 100, none⟩ (by decide)).1,
   (unknown_function_contribution [] ⟨"OTHER", 10, 100, none⟩ (by decide)).2.1⟩

/-! ### C2: mutation of the caller's deliverables collection -/

/-- C2 counterexample: `calculate_earned_value` does NOT leave the
caller's collection untouched — on a one-row dataframe whose
`earned_hours` column is absent, the post-call dataframe differs from
the input (the column assignment on source line 125 is an in-place
pandas mutation). -/
theorem ev_no_mutation_counterexample :
    (calculate_earned_value
        [(⟨"ENGINEERING", 10, 50, none⟩ : DeliverableRow)]).1
      ≠ [(⟨"ENGINEERING", 10, 50, none⟩ : DeliverableRow)] := by
  intro heq
  simp [calculate_earned_value, set_earned] at heq

/-- C2 amended: the mutation is confined to the derived `earned_hours`
column — `calculate_earned_value` preserves the row count and every
pre-existing field (`function`, `budget_hours`, `completion`) of every
row of the caller's collection. -/
theorem ev_no_mutation_amended (ds : List DeliverableRow) :
    ((calculate_earned_value ds).1).map
        (fun r => (r.function, r.budget_hours, r.completion))
      = ds.map (fun r => (r.function, r.budget_hours, r.completion))
    ∧ ((calculate_earned_value ds).1).length = ds.length := by
  by_cases h : ds.isEmpty <;>
    simp [calculate_earned_value, h, set_earned, List.map_map, Function.comp]

/-! ### C3: normalized-entry invariants -/

/-- C3 counterexample: normalization does not guarantee `hours ≥ 0` —
a raw entry whose duration cell is the number −5 normalizes to an
entry with `hours = −5` (and `parse_time_to_hours` passes any negative
numeric through), so the conjoined invariant of the claim fails. -/
theorem normalize_invariant_counterexample :
    ¬ (∀ e ∈ normalize [] []
        [(⟨0, "A", none, Duration.num (-5)⟩ : RawEntry)],
        e.cost = e.hours * e.rate ∧ 0 ≤ e.hours) := by
  intro h
  have hmem : normalize_entry [] [] (⟨0, "A", none, Duration.num (-5)⟩ : RawEntry)
      ∈ normalize [] [] [(⟨0, "A", none, Duration.num (-5)⟩ : RawEntry)] := by
    simp [normalize]
  have h2 := (h _ hmem).2
  have : (normalize_entry [] []
      (⟨0, "A", none, Duration.num (-5)⟩ : RawEntry)).hours = -5 := rfl
  rw [this] at h2
  norm_num at h2

/-- C3 amended: every normalized entry satisfies
`cost = hours * rate`, and `hours ≥ 0` exactly when the parsed
duration is nonnegative — negative numeric (or negative-signed string)
durations pass through as negative hours. -/
theorem normalize_invariant_amended (staff_df : List StaffRow)
    (rates_df : List RateRow) (r : RawEntry) :
    (normalize_entry staff_df rates_df r).cost
      = (normalize_entry staff_df rates_df r).hours
        * (normalize_entry staff_df rates_df r).rate
    ∧ (normalize_entry staff_df rates_df r).hours
      = parse_time_to_hours r.time
    ∧ (0 ≤ parse_time_to_hours r.time →
        0 ≤ (normalize_entry staff_df rates_df r).hours) :=
  ⟨rfl, rfl, fun h => h⟩

/-- Witness for C3 (amended): a one-hour `H:MM:SS` duration yields
nonnegative hours. -/
theorem normalize_invariant_amended_witness :
    0 ≤ (normalize_entry [] []
      (⟨1, "A", none, Duration.str "01:00:00"⟩ : RawEntry)).hours :=
  (normalize_invariant_amended [] [] _).2.2 (by
    norm_num +decide [parse_time_to_hours, splitOnChar, pyInt, decDigits,
      digitsVal, digit_char_toNat])

/-! ### C5: forecast cap -/

/-- C5: in both branches of the forecast computation (at or before the
report date: the actual value; after it: total actuals plus the
forecast map through that week) the published value is capped at
`total_budget * 1.2`, both pointwise and for every member of the
generated forecast curve. -/
theorem forecast_cap (entries : List NormEntry)
    (forecasts : List ForecastCell) (total_budget : ℚ)
    (report_date : ℤ) :
    (∀ week : ℤ, forecast_at entries forecasts total_budget report_date week
      ≤ total_budget * (6 / 5))
    ∧ ∀ weeks : List ℤ,
        ∀ x ∈ forecast_curve entries forecasts total_budget report_date weeks,
          x ≤ total_budget * (6 / 5) := by
  refine ⟨fun week => min_le_right _ _, fun weeks x hx => ?_⟩
  obtain ⟨w, _, rfl⟩ := List.mem_map.mp hx
  exact min_le_right _ _

/-- Witness for C5: the curve-membership clause on a singleton week
list. -/
theorem forecast_cap_witness :
    forecast_at [] [] 10 5 12 ≤ 10 * (6 / 5) :=
  (forecast_cap [] [] 10 5).2 [12]
    (forecast_at [] [] 10 5 12) (by simp [forecast_curve])

/-! ### Monotonicity helper lemmas -/

theorem get_week_list_getD (start_date end_date : ℤ) (fut : ℕ) (i : ℕ)
    (h : i < (get_week_list start_date end_date fut).length) :
    (get_week_list start_date end_date fut).getD i 0
      = calculate_week_ending start_date + 7 * i := by
  simp only [get_week_list, List.length_map, List.length_range] at h
  simp only [get_week_list]
  rw [List.getD_eq_getElem _ _ (by simpa using h)]
  simp only [List.getElem_map, List.getElem_range]

theorem get_week_list_getD_mem (start_date end_date : ℤ) (fut : ℕ) (i : ℕ)
    (h : i < (get_week_list start_date end_date fut).length) :
    (get_week_list start_date end_date fut).getD i 0
      ∈ get_week_list start_date end_date fut := by
  rw [List.getD_eq_getElem _ _ h]
  exact List.getElem_mem h

theorem hours_up_to_mono (entries : List NormEntry) {w w' : ℤ}
    (hw : w ≤ w') :
    (∀ e ∈ entries, 0 ≤ e.hours) →
    hours_up_to entries w ≤ hours_up_to entries w' := by
  induction entries with
  | nil => intro _; simp [hours_up_to]
  | cons a l ih =>
    intro hH
    have ha := hH a (by simp)
    have ihl := ih (fun e he => hH e (by simp [he]))
    simp only [hours_up_to] at ihl
    by_cases h1 : a.week_ending ≤ w
    · have h2 : a.week_ending ≤ w' := le_trans h1 hw
      simp [hours_up_to, List.filter_cons, h1, h2]
      linarith
    · by_cases h2 : a.week_ending ≤ w'
      · simp [hours_up_to, List.filter_cons, h1, h2]
        linarith
      · simp [hours_up_to, List.filter_cons, h1, h2]
        linarith

theorem hours_up_to_le_total (entries : List NormEntry) (w : ℤ) :
    (∀ e ∈ entries, 0 ≤ e.hours) →
    hours_up_to entries w ≤ total_hours entries := by
  induction entries with
  | nil => intro _; simp [hours_up_to, total_hours]
  | cons a l ih =>
    intro hH
    have ha := hH a (by simp)
    have ihl := ih (fun e he => hH e (by simp [he]))
    simp only [hours_up_to, total_hours] at ihl
    by_cases h1 : a.week_ending ≤ w <;>
      simp [hours_up_to, total_hours, List.filter_cons, h1] <;>
      linarith

theorem week_num_mono (weeks : List ℤ) (e : ℤ) (k : ℕ) :
    ((weeks.take k).filter (fun w => decide (w ≤ e))).length
      ≤ ((weeks.take (k + 1)).filter (fun w => decide (w ≤ e))).length := by
  have h1 : weeks.take k = (weeks.take (k + 1)).take k := by
    rw [List.take_take]
    congr 1
    omega
  rw [h1]
  exact ((List.take_sublist _ _).filter _).length_le

theorem week_num_le_total (weeks : List ℤ) (e : ℤ) (k : ℕ) :
    ((weeks.take k).filter (fun w => decide (w ≤ e))).length
      ≤ (weeks.filter (fun w => decide (w ≤ e))).length :=
  ((List.take_sublist k weeks).filter _).length_le

theorem budget_curve_getD (weeks : List ℤ) (e : ℤ) (tb : ℚ) (i : ℕ)
    (h : i < weeks.length) :
    (budget_curve weeks e tb).getD i 0 = budget_at weeks e tb i := by
  simp only [budget_curve]
  rw [List.getD_eq_getElem _ _ (by simpa using h)]
  simp only [List.getElem_map, List.getElem_range]

theorem actual_curve_getD (entries : List NormEntry) (rd : ℤ)
    (weeks : List ℤ) (i : ℕ) (h : i < weeks.length) :
    (actual_curve entries rd weeks).getD i 0
      = actual_at entries rd (weeks.getD i 0) := by
  simp only [actual_curve]
  rw [List.getD_eq_getElem _ _ (by simpa using h), List.getElem_map,
    List.getD_eq_getElem _ _ h]

theorem budget_at_mono (weeks : List ℤ) (e : ℤ) (tb : ℚ) (i : ℕ)
    (hB : 0 ≤ tb) (hlen : i + 1 < weeks.length)
    (hstep : weeks.getD (i + 1) 0 = weeks.getD i 0 + 7) :
    budget_at weeks e tb i ≤ budget_at weeks e tb (i + 1) := by
  by_cases h2 : weeks.getD (i + 1) 0 ≤ e
  · have h1 : weeks.getD i 0 ≤ e := by omega
    have hmem : weeks.getD i 0 ∈ weeks := by
      rw [List.getD_eq_getElem _ _ (by omega)]
      exact List.getElem_mem (by omega)
    have hTpos : 0 <
        (weeks.filter (fun w => decide (w ≤ e))).length := by
      have : weeks.getD i 0 ∈ weeks.filter (fun w => decide (w ≤ e)) :=
        List.mem_filter.mpr ⟨hmem, by simpa using h1⟩
      exact List.length_pos.mpr (List.ne_nil_of_mem this)
    simp only [budget_at, if_pos h1, if_pos h2, if_pos hTpos]
    have hcast : (0 : ℚ) <
        ((weeks.filter (fun w => decide (w ≤ e))).length : ℚ) := by
      exact_mod_cast hTpos
    apply mul_le_mul_of_nonneg_right _ hB
    rw [div_le_div_iff_of_pos_right hcast]
    exact_mod_cast week_num_mono weeks e (i + 1)
  · by_cases h1 : weeks.getD i 0 ≤ e
    · simp only [budget_at, if_pos h1, if_neg h2]
      by_cases hT : 0 < (weeks.filter (fun w => decide (w ≤ e))).length
      · rw [if_pos hT]
        have hcast : (0 : ℚ) <
            ((weeks.filter (fun w => decide (w ≤ e))).length : ℚ) := by
          exact_mod_cast hT
        apply mul_le_of_le_one_left hB
        rw [div_le_one hcast]
        exact_mod_cast week_num_le_total weeks e (i + 1)
      · rw [if_neg hT]
        exact hB
    · simp only [budget_at, if_neg h1, if_neg h2, le_refl]

theorem actual_at_mono (entries : List NormEntry) (rd : ℤ) {w w' : ℤ}
    (hw : w ≤ w') (hH : ∀ e ∈ entries, 0 ≤ e.hours) :
    actual_at entries rd w ≤ actual_at entries rd w' := by
  by_cases h2 : w' ≤ rd
  · have h1 : w ≤ rd := le_trans hw h2
    simp only [actual_at, if_pos h1, if_pos h2]
    exact hours_up_to_mono entries hw hH
  · by_cases h1 : w ≤ rd
    · simp only [actual_at, if_pos h1, if_neg h2]
      exact hours_up_to_le_total entries w hH
    · simp only [actual_at, if_neg h1, if_neg h2, le_refl]

/-! ### C6: monotonicity of the cumulative Budget and Actual series -/

/-- C6: over the week list of `page_s_curves`, the cumulative Budget
and Actual series are non-decreasing between every pair of consecutive
weeks, for any normalized timesheet entries (whose hours are
nonnegative, per the data model) and nonnegative per-function
budgets. -/
theorem cumulative_curves_monotone (entries : List NormEntry)
    (budget_management budget_engineering budget_drafting : ℚ)
    (start_date end_date report_date : ℤ) (num_future_weeks : ℕ)
    (hB : 0 ≤ budget_management + budget_engineering + budget_drafting)
    (hH : ∀ e ∈ entries, 0 ≤ e.hours) :
    ∀ i : ℕ,
      i + 1 < (get_week_list start_date end_date num_future_weeks).length →
      (budget_curve (get_week_list start_date end_date num_future_weeks)
          end_date
          (budget_management + budget_engineering + budget_drafting)).getD i 0
        ≤ (budget_curve (get_week_list start_date end_date num_future_weeks)
            end_date
            (budget_management + budget_engineering + budget_drafting)).getD
            (i + 1) 0
      ∧ (actual_curve entries report_date
          (get_week_list start_date end_date num_future_weeks)).getD i 0
        ≤ (actual_curve entries report_date
            (get_week_list start_date end_date num_future_weeks)).getD
            (i + 1) 0 := by
  intro i hlen
  have hstep : (get_week_list start_date end_date num_future_weeks).getD
      (i + 1) 0
      = (get_week_list start_date end_date num_future_weeks).getD i 0 + 7 := by
    rw [get_week_list_getD _ _ _ _ hlen,
      get_week_list_getD _ _ _ _ (by omega)]
    push_cast
    ring
  constructor
  · rw [budget_curve_getD _ _ _ _ (by omega), budget_curve_getD _ _ _ _ hlen]
    exact budget_at_mono _ _ _ _ hB hlen hstep
  · rw [actual_curve_getD _ _ _ _ (by omega), actual_curve_getD _ _ _ _ hlen]
    exact actual_at_mono entries report_date (by omega) hH

/-- Witness for C6: a concrete one-entry timesheet and the week list
of a three-week project window. -/
theorem cumulative_curves_monotone_witness :
    (budget_curve (get_week_list 0 20 2) 20 ((2 : ℚ) + 3 + 5)).getD 0 0
      ≤ (budget_curve (get_week_list 0 20 2) 20 ((2 : ℚ) + 3 + 5)).getD 1 0
    ∧ (actual_curve [⟨0, 5, "A", none, "ENGINEERING", 1, 170, 170⟩] 5
        (get_week_list 0 20 2)).getD 0 0
      ≤ (actual_curve [⟨0, 5, "A", none, "ENGINEERING", 1, 170, 170⟩] 5
          (get_week_list 0 20 2)).getD 1 0 :=
  cumulative_curves_monotone
    [⟨0, 5, "A", none, "ENGINEERING", 1, 170, 170⟩] 2 3 5 0 20 5 2
    (by norm_num)
    (by
      intro e he
      rw [List.mem_singleton] at he
      subst he
      show (0 : ℚ) ≤ 1
      norm_num)
    0 (by decide)

/-! ### C1: variance analysis at the report date -/

/-- C1 counterexample: the variance block does not use the §4.5 series
values at the report date.  With one 2-hour entry, one fully complete
10-hour ENGINEERING deliverable, total budget 10 and report date on
week 5, the code's cost variance is `10 − 2 = 8`, while
`earnedSeries(report) − actualSeries(report)
  = 10 · min(2/10, 1) − 2 = 0`. -/
theorem variance_counterexample :
    cost_variance [⟨0, 5, "A", none, "ENGINEERING", 2, 170, 340⟩]
        [⟨"ENGINEERING", 10, 100, none⟩]
      ≠ earned_at [⟨0, 5, "A", none, "ENGINEERING", 2, 170, 340⟩]
          [⟨"ENGINEERING", 10, 100, none⟩] 10 5 5
        - actual_at [⟨0, 5, "A", none, "ENGINEERING", 2, 170, 340⟩] 5 5 := by
  have hL : cost_variance [⟨0, 5, "A", none, "ENGINEERING", 2, 170, 340⟩]
      [⟨"ENGINEERING", 10, 100, none⟩] = 8 := by
    norm_num [cost_variance, current_earned, current_actual, total_hours,
      ev_hours_eq, earnedHoursSpec]
  have hA : actual_at [⟨0, 5, "A", none, "ENGINEERING", 2, 170, 340⟩] 5 5
      = 2 := by
    norm_num [actual_at, hours_up_to]
  have hE : earned_at [⟨0, 5, "A", none, "ENGINEERING", 2, 170, 340⟩]
      [⟨"ENGINEERING", 10, 100, none⟩] 10 5 5 = 2 := by
    norm_num [earned_at, total_hours, ev_hours_eq, earnedHoursSpec, min_def]
  rw [hL, hA, hE]
  norm_num

/-- C1 amended: at the report date the variance block computes
`scheduleVariance = totalEarnedHours − budgetAtReportDate`,
`costVariance = totalEarnedHours − totalActualHours`,
`SPI = totalEarnedHours / budgetAtReportDate` (1.0 unless the budget
at the report date is positive) and
`CPI = totalEarnedHours / totalActualHours` (1.0 unless the actual
total is positive), where `totalEarnedHours` is the unscaled
earned-hours total `Σ budget_hours · completion / 100` over the
deliverables (not the scaled Earned series value), `totalActualHours`
sums ALL timesheet entries regardless of week (not the Actual series
value at the report date), and `budgetAtReportDate` is the Budget
series value at the report date when that date occurs in the week
list and the total budget otherwise. -/
theorem variance_amended (entries : List NormEntry)
    (dels : List DeliverableRow) (weeks : List ℤ) (end_date : ℤ)
    (total_budget : ℚ) (report_date : ℤ) :
    schedule_variance dels weeks end_date total_budget report_date
      = earnedHoursSpec dels
        - current_budget weeks end_date total_budget report_date
    ∧ cost_variance entries dels
      = earnedHoursSpec dels - total_hours entries
    ∧ spi dels weeks end_date total_budget report_date
      = (if 0 < current_budget weeks end_date total_budget report_date then
          earnedHoursSpec dels
            / current_budget weeks end_date total_budget report_date
        else 1)
    ∧ cpi entries dels
      = (if 0 < total_hours entries then
          earnedHoursSpec dels / total_hours entries
        else 1) := by
  refine ⟨?_, ?_, ?_, ?_⟩ <;>
    simp [schedule_variance, cost_variance, spi, cpi, current_earned,
      current_actual, ev_hours_eq]

end Scorecard
